import Mathlib

/-!
Verification development for the YouTube ingest tool
(modules: youtube_processor, batch_processor, comment_importer,
retry, user_randomizer, ingest).

Each Python function relevant to the checked properties is shallowly
embedded as an executable Lean definition.  Machine integers are Nat or
Int; dict records become structures with Option fields for keys that the
code reads with .get defaults; global mutable state becomes explicit
state passing; network calls become an oracle (a stream of responses
indexed by a call counter); randomness, hashing and uuid generation
become oracle functions bundled in an Entropy structure.
-/

namespace Ingest

/-! ### Python primitives

pyIsSpace models the ASCII part of the Python regex class backslash-s and
of str.split / str.strip whitespace (inputs of interest are ASCII).
-/

def pyIsSpace (c : Char) : Bool :=
  c = ' ' || c = '\t' || c = '\n' || c = '\r' || c = '\x0b' || c = '\x0c'

def digitVal (c : Char) : Nat := c.toNat - 48

/-- Python truthiness of an optional string: None and the empty string are
falsy, any other string is truthy. -/
def optTruthy : Option String → Bool
  | some s => s ≠ ""
  | none => false

/-- Drop the longest whitespace run at the front (greedy backslash-s-star;
greediness is complete here because every continuation in the embedded
patterns starts with a non-whitespace character class). -/
def dropSpaces : List Char → List Char
  | [] => []
  | c :: rest => if pyIsSpace c then dropSpaces rest else c :: rest

/-! ### Timestamp Resolver: YouTubeProcessor._extract_timestamp and
YouTubeProcessor._remove_timestamp_from_text.

The four patterns share the core time sub-pattern
d{1,2}:d{2}(?::(d{2}))? .  Because a digit is never a colon, the
d{1,2} quantifier and the whitespace quantifiers are deterministic
(greedy matching never needs to backtrack), so each pattern is embedded
as a direct matcher at a position, and re.search as a left-to-right scan
over suffixes.
-/

/-- Match exactly two digits, returning their value and the rest. -/
def matchDD : List Char → Option (Nat × List Char)
  | c1 :: c2 :: rest =>
    if c1.isDigit && c2.isDigit then
      some (10 * digitVal c1 + digitVal c2, rest)
    else none
  | _ => none

/-- Match d{1,2} immediately followed by a colon, returning the numeric
value of the digit group and the rest after the colon.  Greedy: two
digits are preferred; the one-digit alternative can only apply when the
second character is the colon itself. -/
def matchD12Colon : List Char → Option (Nat × List Char)
  | c1 :: rest =>
    if c1.isDigit then
      match rest with
      | c2 :: rest2 =>
        if c2.isDigit then
          match rest2 with
          | c3 :: rest3 =>
            if c3 = ':' then some (10 * digitVal c1 + digitVal c2, rest3) else none
          | [] => none
        else if c2 = ':' then some (digitVal c1, rest2)
        else none
      | [] => none
    else none
  | [] => none

/-- Match the core time pattern d{1,2}:d{2}(?::(d{2}))? at the head,
returning the first two groups, the optional third group, and the rest.
The optional group is greedy; skipping it leaves a rest that starts with
a colon, on which every continuation used by the four patterns (empty,
end-of-text, one-or-more spaces) fails, so greediness is complete. -/
def matchTimeCore (s : List Char) : Option (Nat × Nat × Option Nat × List Char) :=
  match matchD12Colon s with
  | none => none
  | some (a, r1) =>
    match matchDD r1 with
    | none => none
    | some (b, r2) =>
      match r2 with
      | c :: r3 =>
        if c = ':' then
          match matchDD r3 with
          | some (g3, r4) => some (a, b, some g3, r4)
          | none => some (a, b, none, r2)
        else some (a, b, none, r2)
      | [] => some (a, b, none, r2)

/-- Match the case-insensitive alternation (?:at|@) at the head. -/
def matchAtWord : List Char → Option (List Char)
  | c1 :: rest =>
    if c1 = '@' then some rest
    else if c1 = 'a' || c1 = 'A' then
      match rest with
      | c2 :: rest2 => if c2 = 't' || c2 = 'T' then some rest2 else none
      | [] => none
    else none
  | [] => none

/-- Match backslash-s-plus (one or more whitespace, greedy). -/
def matchSpaces1 : List Char → Option (List Char)
  | c :: rest => if pyIsSpace c then some (dropSpaces rest) else none
  | [] => none

/-- Match the case-insensitive alternation (?:is|was|at) at the head. -/
def matchKeyword : List Char → Option (List Char)
  | c1 :: c2 :: rest =>
    if c1.toLower = 'i' && c2.toLower = 's' then some rest
    else if c1.toLower = 'w' then
      match rest with
      | c3 :: rest2 =>
        if c2.toLower = 'a' && c3.toLower = 's' then some rest2 else none
      | [] => none
    else if c1.toLower = 'a' && c2.toLower = 't' then some rest
    else none
  | _ => none

/-- Pattern (?:at|@)s*(d{1,2}):(d{2})(?::(d{2}))? tried at one position;
returns the groups. -/
def pat1 (s : List Char) : Option (Nat × Nat × Option Nat) :=
  (matchAtWord s).bind fun r =>
    (matchTimeCore (dropSpaces r)).map fun g => (g.1, g.2.1, g.2.2.1)

/-- Pattern (d{1,2}):(d{2})(?::(d{2}))?s+(?:is|was|at) at one position. -/
def pat2 (s : List Char) : Option (Nat × Nat × Option Nat) :=
  (matchTimeCore s).bind fun g =>
    (matchSpaces1 g.2.2.2).bind fun r2 =>
      (matchKeyword r2).map fun _ => (g.1, g.2.1, g.2.2.1)

/-- Anchored pattern caret(d{1,2}):(d{2})(?::(d{2}))?dollar: the time at
the very start with nothing after it.  With re.search and no MULTILINE
the caret restricts matching to position zero. -/
def pat3 (s : List Char) : Option (Nat × Nat × Option Nat) :=
  (matchTimeCore s).bind fun g =>
    if g.2.2.2 = ([] : List Char) then some (g.1, g.2.1, g.2.2.1) else none

/-- Pattern (d{1,2}):(d{2})(?::(d{2}))? anywhere (tried at one position). -/
def pat4 (s : List Char) : Option (Nat × Nat × Option Nat) :=
  (matchTimeCore s).map fun g => (g.1, g.2.1, g.2.2.1)

/-- re.search: try the matcher at each position left to right (including
the empty suffix) and return the first success. -/
def searchAux {α : Type} (m : List Char → Option α) : List Char → Option α
  | [] => m []
  | c :: rest =>
    match m (c :: rest) with
    | some r => some r
    | none => searchAux m rest

/-- Convert the captured groups to seconds exactly as the code does:
three captured groups are hours:minutes:seconds, otherwise
minutes:seconds. -/
def secondsOfGroups : Nat × Nat × Option Nat → Nat
  | (a, b, some c) => a * 3600 + b * 60 + c
  | (a, b, none) => a * 60 + b

/-- YouTubeProcessor._extract_timestamp: try the four patterns in order,
first match wins, 0 when nothing matches. -/
def extract_timestamp (text : String) : Nat :=
  let s := text.toList
  match searchAux pat1 s with
  | some g => secondsOfGroups g
  | none =>
    match searchAux pat2 s with
    | some g => secondsOfGroups g
    | none =>
      match pat3 s with
      | some g => secondsOfGroups g
      | none =>
        match searchAux pat4 s with
        | some g => secondsOfGroups g
        | none => 0

/-! Removal matchers: same patterns without group capture, returning the
rest after the matched span (the span is what re.sub deletes). -/

def rem1 (s : List Char) : Option (List Char) :=
  (matchAtWord s).bind fun r =>
    (matchTimeCore (dropSpaces r)).map fun g => g.2.2.2

def rem2 (s : List Char) : Option (List Char) :=
  (matchTimeCore s).bind fun g =>
    (matchSpaces1 g.2.2.2).bind fun r2 => matchKeyword r2

def rem4 (s : List Char) : Option (List Char) :=
  (matchTimeCore s).map fun g => g.2.2.2

/-- re.sub with empty replacement: scan left to right, delete each
match and continue after it.  Fuel equals the initial length; every
match consumes at least one character so fuel never runs out.  The
length guard makes the function total even for a hypothetical
empty match (the embedded patterns always consume a digit). -/
def subAllF (m : List Char → Option (List Char)) : Nat → List Char → List Char
  | _, [] => []
  | 0, s => s
  | fuel + 1, c :: rest =>
    match m (c :: rest) with
    | some r =>
      if r.length ≤ rest.length then subAllF m fuel r
      else c :: subAllF m fuel rest
    | none => c :: subAllF m fuel rest

def subAll (m : List Char → Option (List Char)) (s : List Char) : List Char :=
  subAllF m s.length s

/-- re.sub for the anchored removal pattern
caret-d{1,2}:d{2}(?::d{2})?s-star: at most one match, at position zero,
spanning the time and the following whitespace run. -/
def sub3run (s : List Char) : List Char :=
  match matchTimeCore s with
  | some g => dropSpaces g.2.2.2
  | none => s

/-- re.sub of backslash-s-plus with a single space: collapse every
whitespace run to one space.  The flag records whether the previous
character was part of a run already replaced. -/
def collapseWSAux : Bool → List Char → List Char
  | _, [] => []
  | prevWS, c :: rest =>
    if pyIsSpace c then
      if prevWS then collapseWSAux true rest
      else ' ' :: collapseWSAux true rest
    else c :: collapseWSAux false rest

def collapseWS (s : List Char) : List Char := collapseWSAux false s

/-- Python str.strip(): drop whitespace at both ends. -/
def stripEnds (s : List Char) : List Char :=
  (dropSpaces (dropSpaces s).reverse).reverse

/-- YouTubeProcessor._remove_timestamp_from_text: apply the four removal
substitutions in order, then collapse whitespace and strip the ends. -/
def remove_timestamp_from_text (text : String) : String :=
  let s := text.toList
  let s1 := subAll rem1 s
  let s2 := subAll rem2 s1
  let s3 := sub3run s2
  let s4 := subAll rem4 s3
  String.mk (stripEnds (collapseWS s4))


/-! ### Flat comment processing: YouTubeProcessor._process_flat_comments
and the timestamp filter of BatchProcessor.process_video.

A raw yt-dlp comment entry is a dict; every key the code reads with a
.get default is an Option field (none models an absent key).
-/

structure RawComment where
  parent : Option String
  text : Option String
  id : Option String
  author : Option String
  author_thumbnail : Option String
  deriving DecidableEq, Repr

/-- Pipeline comment record as built by _process_flat_comments and
consumed by CommentImporter.import_comments.  The code stores
commented_at as str(n) and the consumers parse it back with int/float;
since that round trip is the identity on the natural numbers the code
produces, the embedding keeps the numeric value (none models an absent
key). -/
structure ImpRec where
  comment : String
  user_name : Option String
  created_by_id : Option String
  profile_picture : Option String
  commented_at : Option Nat
  yt_id : Option String
  parent_id : Option String
  deriving DecidableEq, Repr

/-- True when raw_comment.get("parent", "root") == "root". -/
def isRoot (raw : RawComment) : Bool := raw.parent.getD "root" = "root"

/-- Shared body of the two mapping branches of _process_flat_comments:
extract the timestamp, strip it from the text when found, strip the
text ends, and fill the record fields. -/
def mapRaw (parentId : Option String) (raw : RawComment) : ImpRec :=
  let comment_text := raw.text.getD ""
  let commented_at := extract_timestamp comment_text
  let comment_text2 :=
    if commented_at > 0 then remove_timestamp_from_text comment_text
    else comment_text
  { comment := String.mk (stripEnds comment_text2.toList)
  , user_name := some (raw.author.getD "Unknown User")
  , created_by_id := some ""
  , profile_picture := some (raw.author_thumbnail.getD "")
  , commented_at := some commented_at
  , yt_id := some (raw.id.getD "")
  , parent_id := parentId }

/-- Mapping used for entries whose parent field is "root". -/
def mapParent (raw : RawComment) : ImpRec := mapRaw none raw

/-- Mapping used for reply entries: parent_id is the raw parent field
(raw_comment.get("parent", "")). -/
def mapReply (raw : RawComment) : ImpRec := mapRaw (some (raw.parent.getD "")) raw

/-- YouTubeProcessor._process_flat_comments: partition into parents and
replies preserving relative order, then emit all mapped parents followed
by all mapped replies.  The stats counters are omitted; they do not
affect the emitted list. -/
def processFlatComments (entries : List RawComment) : List ImpRec :=
  (entries.filter isRoot).map mapParent
    ++ (entries.filter (fun e => !isRoot e)).map mapReply

/-- The filter in BatchProcessor.process_video:
int(comment.get("commented_at", "0") or "0") > 0. -/
def filterWithTimestamp (comments : List ImpRec) : List ImpRec :=
  comments.filter fun c => decide (0 < c.commented_at.getD 0)

/-! ### Identity Anonymizer: UserRandomizer.

Randomness, the Python hash builtin and uuid4 are modelled as oracle
functions indexed by a draw counter (randInt models the successive
values returned by random.randint(1, 999); the range constraint is not
needed by any theorem and is not imposed).  The three memo dicts become
functions String to Option String, and the in-place comment mutation
becomes a returned record.
-/

structure Entropy where
  randInt : Nat → Nat
  pyHash : String → Int
  uuid4 : Nat → String

structure RandState where
  name_map : String → Option String
  avatar_map : String → Option String
  user_id_map : String → Option String
  randCtr : Nat
  uuidCtr : Nat

/-- Insert into a memo map (Python dict assignment at a new key). -/
def mapInsert (m : String → Option String) (k v : String) : String → Option String :=
  fun x => if x = k then some v else m x

/-- Python str.split(): whitespace-delimited tokens, empties discarded. -/
def splitWSAux : List Char → List Char → List (List Char)
  | acc, [] => if acc = [] then [] else [acc.reverse]
  | acc, c :: rest =>
    if pyIsSpace c then
      if acc = [] then splitWSAux [] rest
      else acc.reverse :: splitWSAux [] rest
    else splitWSAux (c :: acc) rest

def splitWS (s : String) : List String :=
  (splitWSAux [] s.toList).map String.mk

/-- The alphabetic filter applied to the base token (str.isalpha on the
ASCII inputs of interest). -/
def filterAlpha (s : String) : String :=
  String.mk (s.toList.filter Char.isAlpha)

/-- UserRandomizer.get_randomized_name. -/
def get_randomized_name (E : Entropy) (st : RandState) (original_name : String) :
    String × RandState :=
  match st.name_map original_name with
  | some v => (v, st)
  | none =>
    let parts := splitWS original_name
    let base :=
      match parts with
      | [] => "User"
      | p0 :: _ =>
        if p0.length > 2 then
          let b := filterAlpha p0
          if b = "" then "User" else b
        else "User"
    let randomized := base ++ "_" ++ toString (E.randInt st.randCtr)
    (randomized,
      { st with
        name_map := mapInsert st.name_map original_name randomized
        randCtr := st.randCtr + 1 })

/-- UserRandomizer.get_random_avatar.  The calls to random.seed mutate
only the global random generator state, which the oracle model already
abstracts, so they have no further effect here. -/
def get_random_avatar (E : Entropy) (st : RandState) (original_name : String) :
    String × RandState :=
  match st.avatar_map original_name with
  | some v => (v, st)
  | none =>
    let name_hash := E.pyHash original_name
    let seed := name_hash.natAbs % 1000000
    let avatar_url :=
      "https://api.dicebear.com/7.x/personas/svg?seed=" ++ toString seed
        ++ "&backgroundColor=b6e3f4,c0aede,d1d4f9,ffd5dc,ffdfbf"
    (avatar_url, { st with avatar_map := mapInsert st.avatar_map original_name avatar_url })

/-- UserRandomizer.get_user_id. -/
def get_user_id (E : Entropy) (st : RandState) (original_name : String) :
    String × RandState :=
  match st.user_id_map original_name with
  | some v => (v, st)
  | none =>
    let user_uuid := E.uuid4 st.uuidCtr
    (user_uuid,
      { st with
        user_id_map := mapInsert st.user_id_map original_name user_uuid
        uuidCtr := st.uuidCtr + 1 })

/-- The author-related fields of a comment dict as read and written by
UserRandomizer.anonymize_comment (user_name is Option: none models a
dict without the user_name key). -/
structure AFields where
  user_name : Option String
  profile_picture : String
  created_by_id : String
  deriving DecidableEq, Repr

/-- A comment dict as walked by anonymize_comments: its own fields plus
one level of nested replies (an absent or empty replies key is the empty
list; the code treats both the same way). -/
structure AComment where
  fields : AFields
  replies : List AFields
  deriving DecidableEq, Repr

/-- UserRandomizer.anonymize_comment. -/
def anonymize_comment (E : Entropy) (st : RandState) (f : AFields) :
    AFields × RandState :=
  let original_name := f.user_name.getD "Unknown"
  let nameStep :=
    match f.user_name with
    | some _ =>
      let r := get_randomized_name E st original_name
      (some r.1, r.2)
    | none => (none, st)
  let avStep := get_random_avatar E nameStep.2 original_name
  let idStep := get_user_id E avStep.2 original_name
  ({ user_name := nameStep.1
    , profile_picture := avStep.1
    , created_by_id := idStep.1 }, idStep.2)

/-- Anonymize a list of reply dicts in order. -/
def anonymizeList (E : Entropy) : RandState → List AFields → List AFields × RandState
  | st, [] => ([], st)
  | st, f :: fs =>
    let r := anonymize_comment E st f
    let rs := anonymizeList E r.2 fs
    (r.1 :: rs.1, rs.2)

/-- UserRandomizer.anonymize_comments: anonymize each comment and, when
the replies list is non-empty, each of its replies. -/
def anonymize_comments (E : Entropy) : RandState → List AComment → List AComment × RandState
  | st, [] => ([], st)
  | st, c :: cs =>
    let r := anonymize_comment E st c.fields
    let rs :=
      if c.replies = [] then (c.replies, r.2)
      else anonymizeList E r.2 c.replies
    let rest := anonymize_comments E rs.2 cs
    ({ fields := r.1, replies := rs.1 } :: rest.1, rest.2)

/-! ### Importer: CommentImporter.import_comments, the retry decorator
retry_with_backoff, and the 500-handling wrapper.

Each requests.post against the publish endpoint is one consultation of
a transport oracle at an increasing call index.  A response either
carries an HTTP status together with the id extracted from its JSON body
(response json, key comment then key id; none when absent), or the post
itself raised a requests-level exception (connection error or timeout).
The delays handed to time.sleep take the exact integer values 1, 2, 4,
... capped at 60 (and the fixed 2 of the 500 handler), so they are
recorded as naturals.  Token bookkeeping (_ensure_valid_token and the
periodic refresh every 50 records) only mutates the JWT attached to the
requests, which the transport oracle abstracts, so it is omitted from
the loop model.
-/

inductive PostResult where
  | resp (status : Nat) (commentId : Option String)
  | exn
  deriving DecidableEq, Repr

/-- A Python exception escaping the transmission helpers: an HTTPError
raised by raise_for_status (with its status), or another
RequestException (connection error, timeout). -/
inductive PyExc where
  | http (status : Nat)
  | conn
  deriving DecidableEq, Repr

/-- _make_request: one requests.post; raise_for_status converts any
status of at least 400 into an HTTPError. -/
def makeRequest (trans : Nat → PostResult) (n : Nat) : Except PyExc (Option String) :=
  match trans n with
  | .resp status body => if 400 ≤ status then .error (.http status) else .ok body
  | .exn => .error .conn

/-- retry_with_backoff applied to _make_request
(_import_single_comment_non_500): remaining is the number of retries
still allowed, delay the next sleep; on failure with retries left the
wrapper sleeps delay and doubles it capped at 60.  Returns the outcome,
the next transport index and the recorded sleeps. -/
def retryAux (trans : Nat → PostResult) :
    Nat → Nat → Nat → Except PyExc (Option String) × Nat × List Nat
  | remaining, n, delay =>
    match makeRequest trans n with
    | .ok b => (.ok b, n + 1, [])
    | .error e =>
      match remaining with
      | 0 => (.error e, n + 1, [])
      | r + 1 =>
        let rec' := retryAux trans r (n + 1) (min (delay * 2) 60)
        (rec'.1, rec'.2.1, delay :: rec'.2.2)

/-- _import_single_comment_with_500_handling: first post; a 500 gets one
special retry after a fixed 2 second sleep (a second 500 escapes as the
HTTPError, any other failure of that retry falls through to the
decorated non-500 path); any other error status, and any request-level
exception, delegates to the retry_with_backoff wrapper, which posts
again from scratch. -/
def importSingle500 (trans : Nat → PostResult) (maxRetries : Nat) (n : Nat) :
    Except PyExc (Option String) × Nat × List Nat :=
  match trans n with
  | .resp s b =>
    if s = 500 then
      match trans (n + 1) with
      | .resp s2 b2 =>
        if 400 ≤ s2 then
          if s2 = 500 then (.error (.http 500), n + 2, [2])
          else
            let r := retryAux trans maxRetries (n + 2) 1
            (r.1, r.2.1, 2 :: r.2.2)
        else (.ok b2, n + 2, [2])
      | .exn =>
        let r := retryAux trans maxRetries (n + 2) 1
        (r.1, r.2.1, 2 :: r.2.2)
    else if 400 ≤ s then
      retryAux trans maxRetries (n + 1) 1
    else (.ok b, n + 1, [])
  | .exn => retryAux trans maxRetries (n + 1) 1

/-- The outbound payload dict built for each record; the parent_id field
is none when the code leaves the key out. -/
structure Payload where
  comment : String
  created_by_id : String
  user_name : String
  profile_picture : String
  pubnub_channel : String
  commented_at : Nat
  asset_id : String
  parent_id : Option String
  deriving DecidableEq, Repr

/-- Payload construction for one record given the current parent map:
the parent lookup happens only for a truthy parent_id, and the key is
attached only when the looked-up value is truthy. -/
def mkPayload (pm : String → Option String) (asset_id : String) (r : ImpRec) : Payload :=
  let youtube_parent_id := r.parent_id
  let incast_parent_id : Option String :=
    if optTruthy youtube_parent_id then pm (youtube_parent_id.getD "") else none
  { comment := r.comment
  , created_by_id := r.created_by_id.getD ""
  , user_name := r.user_name.getD "Unknown"
  , profile_picture := r.profile_picture.getD ""
  , pubnub_channel := "comments_" ++ asset_id
  , commented_at := r.commented_at.getD 0
  , asset_id := asset_id
  , parent_id := if optTruthy incast_parent_id then incast_parent_id else none }

/-- Loop state of import_comments: the per-call parent map, the two
instance counters, the transport call index, the recorded backoff
sleeps, and the trace of payloads built (one per record, in order). -/
structure LoopSt where
  parentMap : String → Option String
  imported : Nat
  failed : Nat
  callIdx : Nat
  sleeps : List Nat
  payloads : List Payload

/-- One iteration of the import_comments loop body for record number idx
(1-based, used for the yt_id fallback and the dry-run fake id). -/
def importStep (trans : Nat → PostResult) (maxRetries : Nat) (dryRun : Bool)
    (asset_id : String) (idx : Nat) (r : ImpRec) (st : LoopSt) : LoopSt :=
  let yt_id := r.yt_id.getD ("yt_" ++ toString idx)
  let payload := mkPayload st.parentMap asset_id r
  if dryRun then
    { st with
      imported := st.imported + 1
      parentMap := mapInsert st.parentMap yt_id ("dry-run-" ++ toString idx)
      payloads := st.payloads ++ [payload] }
  else
    let res := importSingle500 trans maxRetries st.callIdx
    match res.1 with
    | .ok body =>
      match body with
      | some incast_comment_id =>
        if incast_comment_id ≠ "" then
          { st with
            parentMap := mapInsert st.parentMap yt_id incast_comment_id
            imported := st.imported + 1
            callIdx := res.2.1
            sleeps := st.sleeps ++ res.2.2
            payloads := st.payloads ++ [payload] }
        else
          { st with
            failed := st.failed + 1
            callIdx := res.2.1
            sleeps := st.sleeps ++ res.2.2
            payloads := st.payloads ++ [payload] }
      | none =>
        { st with
          failed := st.failed + 1
          callIdx := res.2.1
          sleeps := st.sleeps ++ res.2.2
          payloads := st.payloads ++ [payload] }
    | .error _ =>
      { st with
        failed := st.failed + 1
        callIdx := res.2.1
        sleeps := st.sleeps ++ res.2.2
        payloads := st.payloads ++ [payload] }

/-- The enumerate(comments, 1) loop. -/
def importLoop (trans : Nat → PostResult) (maxRetries : Nat) (dryRun : Bool)
    (asset_id : String) : Nat → List ImpRec → LoopSt → LoopSt
  | _, [], st => st
  | idx, r :: rs, st =>
    importLoop trans maxRetries dryRun asset_id (idx + 1) rs
      (importStep trans maxRetries dryRun asset_id idx r st)

/-- Loop state at the top of import_comments: empty parent map, instance
counters carried over, call index zero. -/
def initLoopSt (imported0 failed0 : Nat) : LoopSt :=
  { parentMap := fun _ => none
  , imported := imported0
  , failed := failed0
  , callIdx := 0
  , sleeps := []
  , payloads := [] }

/-- CommentImporter.import_comments: fresh per-call parent map, instance
counters carried in from the importer object, records processed in
order.  The returned dict is (state.imported, state.failed,
comments.length). -/
def import_comments (trans : Nat → PostResult) (maxRetries : Nat) (dryRun : Bool)
    (comments : List ImpRec) (asset_id : String)
    (imported0 failed0 : Nat) : LoopSt :=
  importLoop trans maxRetries dryRun asset_id 1 comments (initLoopSt imported0 failed0)

/-- CommentImporter.import_live_chats: reset both instance counters to
zero, then delegate to import_comments. -/
def import_live_chats (trans : Nat → PostResult) (maxRetries : Nat) (dryRun : Bool)
    (live_chats : List ImpRec) (asset_id : String)
    (_imported0 _failed0 : Nat) : LoopSt :=
  import_comments trans maxRetries dryRun live_chats asset_id 0 0

/-! ### Credential Refresher: CommentImporter._refresh_token. -/

/-- The data.refreshToken object of a refresh response (none also models
an empty dict, which is falsy). -/
structure RefreshResult where
  token : Option String
  refreshToken : Option String
  deriving DecidableEq, Repr

/-- Body of a refresh response: whether the errors key is present, and
the extracted data.refreshToken object. -/
structure RefreshBody where
  hasErrors : Bool
  result : Option RefreshResult
  deriving DecidableEq, Repr

/-- Outcome of the single requests.post of _refresh_token. -/
inductive RefreshResp where
  | resp (status : Nat) (body : RefreshBody)
  | exn
  deriving DecidableEq, Repr

/-- The credential state shared by reference with the importer. -/
structure CredState where
  jwt_token : String
  refresh_token : Option String
  backend_url : Option String
  dry_run : Bool
  deriving DecidableEq, Repr

/-- CommentImporter._refresh_token: returns the boolean result and the
credential state after the call. -/
def refresh_token_call (st : CredState) (resp : RefreshResp) : Bool × CredState :=
  if !optTruthy st.backend_url then (false, st)
  else if !optTruthy st.refresh_token then (false, st)
  else if st.dry_run then (true, st)
  else
    match resp with
    | .exn => (false, st)
    | .resp status body =>
      if status ≠ 200 then (false, st)
      else if body.hasErrors then (false, st)
      else
        match body.result with
        | none => (false, st)
        | some result =>
          match result.token with
          | none => (false, st)
          | some new_token =>
            if new_token = "" then (false, st)
            else
              let st1 := { st with jwt_token := new_token }
              match result.refreshToken with
              | none => (true, st1)
              | some new_refresh_token =>
                if new_refresh_token = "" then (true, st1)
                else (true, { st1 with refresh_token := some new_refresh_token })

/-! ### Entry point: the process_list invocation in ingest.main.

Python binds a call with no var-keyword parameter by requiring every
keyword argument name to be a declared parameter; an unexpected keyword
raises TypeError before the function body runs.  The surrounding try
block of main catches every Exception and exits with code 1 (the
fatal-error path); the TypeError fires before load_list_file, so zero
videos are processed.
-/

def process_list_params : List String :=
  ["list_file", "dry_run", "video_only", "comments_only", "max_items_limit", "asset_id"]

def main_process_list_kwargs : List String :=
  ["dry_run", "video_only", "comments_only", "max_items_limit", "asset_id", "skip_live_chat"]

/-- A call binds only if every keyword argument is a declared parameter
(the callee declares no var-keyword parameter); this check depends only
on the argument names, never on the values. -/
def pyUnexpectedKeyword (params kwargs : List String) : Bool :=
  kwargs.any fun k => !params.contains k

inductive RunEnd where
  | exited (code : Nat) (videosProcessed : Nat)
  | completed
  deriving DecidableEq, Repr

/-- The batch phase of ingest.main: the process_list call either raises
TypeError at binding time (caught by the fatal-error handler, exit code
1, no videos processed) or would run the batch. -/
def mainBatchPhase : RunEnd :=
  if pyUnexpectedKeyword process_list_params main_process_list_kwargs then
    RunEnd.exited 1 0
  else RunEnd.completed

/-! ### Character-list notions used by the timestamp-resolver theorems -/

/-- The character list of the phrase "at 12:34". -/
def phraseL : List Char := ['a', 't', ' ', '1', '2', ':', '3', '4']

def phraseTail : List Char := ['t', ' ', '1', '2', ':', '3', '4']

/-- A suffix that begins with a colon followed by two digits (the one
shape on which the optional seconds group of the time pattern fires). -/
def startsColonDD (s : List Char) : Bool :=
  match s with
  | c :: r => c = ':' && (matchDD r).isSome
  | [] => false

/-- No character of the list is a decimal digit. -/
def digitFree (l : List Char) : Prop := ∀ c ∈ l, c.isDigit = false

instance digitFree_decidable (l : List Char) : Decidable (digitFree l) :=
  List.decidableBAll _ l

/-! ### Oracle and record fixtures used by concrete theorems -/

/-- A transport on which every post fails: either the post raises, or it
returns an error status (at least 400). -/
def AllFail (trans : Nat → PostResult) : Prop :=
  ∀ k, trans k = .exn ∨ ∃ s b, trans k = .resp s b ∧ 400 ≤ s

/-- A record used to exercise the importer theorems on concrete runs. -/
def rec0 : ImpRec :=
  { comment := "hi"
  , user_name := none
  , created_by_id := none
  , profile_picture := none
  , commented_at := some 5
  , yt_id := some "y1"
  , parent_id := none }

def transOk : Nat → PostResult := fun _ => .resp 200 (some "x")

def trans404 : Nat → PostResult := fun _ => .resp 404 none

def trans500 : Nat → PostResult := fun _ => .resp 500 none

def trans502 : Nat → PostResult := fun _ => .resp 502 none

def transExn : Nat → PostResult := fun _ => .exn

/-- The three memo maps of one state are contained in those of another
(the anonymizer only ever inserts, so every operation extends). -/
def RandExtend (st st2 : RandState) : Prop :=
  (∀ n v, st.name_map n = some v → st2.name_map n = some v) ∧
  (∀ n v, st.avatar_map n = some v → st2.avatar_map n = some v) ∧
  (∀ n v, st.user_id_map n = some v → st2.user_id_map n = some v)

def entropy0 : Entropy :=
  { randInt := fun k => k + 1
  , pyHash := fun s => Int.ofNat ((s.toList.map Char.toNat).sum)
  , uuid4 := fun k => "uuid-" ++ toString k }

def randState0 : RandState :=
  { name_map := fun _ => none
  , avatar_map := fun _ => none
  , user_id_map := fun _ => none
  , randCtr := 0
  , uuidCtr := 0 }

def fred0 : AComment :=
  { fields := { user_name := some "Fred23", profile_picture := "", created_by_id := "" }
  , replies := [] }

/-- A raw entry whose text carries a detectable timestamp. -/
def hasTsRaw (raw : RawComment) : Bool :=
  decide (0 < extract_timestamp (raw.text.getD ""))

/-- Raw entries for the counterexample: parent without a timestamp,
reply to it with one. -/
def rawP : RawComment :=
  { parent := some "root", text := some "nice video", id := some "p1"
  , author := some "alice", author_thumbnail := some "" }

def rawR : RawComment :=
  { parent := some "p1", text := some "at 1:30 great moment", id := some "r1"
  , author := some "bob", author_thumbnail := some "" }

/-- The payloads built by the loop, one per record in order, each from
the parent-map state current when its record is reached. -/
def payloadTrace (trans : Nat → PostResult) (mr : Nat) (dry : Bool) (aid : String) :
    Nat → List ImpRec → LoopSt → List Payload
  | _, [], _ => []
  | idx, r :: rs, st =>
    mkPayload st.parentMap aid r ::
      payloadTrace trans mr dry aid (idx + 1) rs (importStep trans mr dry aid idx r st)

/-- The loop state after the first i records, starting from the state at
the top of import_comments. -/
def stateBefore (trans : Nat → PostResult) (mr : Nat) (dry : Bool) (aid : String)
    (records : List ImpRec) (i0 f0 i : Nat) : LoopSt :=
  importLoop trans mr dry aid 1 (records.take i) (initLoopSt i0 f0)

def transId : Nat → PostResult := fun k => .resp 200 (some ("id" ++ toString k))

def recA : ImpRec :=
  { comment := "a"
  , user_name := none
  , created_by_id := none
  , profile_picture := none
  , commented_at := some 5
  , yt_id := some ""
  , parent_id := none }

def recB : ImpRec :=
  { comment := "b"
  , user_name := none
  , created_by_id := none
  , profile_picture := none
  , commented_at := some 6
  , yt_id := some "r2"
  , parent_id := some "" }

def credSt0 : CredState :=
  { jwt_token := "jwt-old", refresh_token := some "ref-old"
  , backend_url := some "https://b/graphql/", dry_run := false }

/-! Sanity checks of the timestamp resolver on concrete texts. -/

example : extract_timestamp "at 12:34" = 754 := by decide
example : extract_timestamp "at 1:30 at 12:34" = 90 := by decide
example : extract_timestamp "nice video" = 0 := by decide
example : extract_timestamp "10:15:30" = 36930 := by decide
example : extract_timestamp "see 1:30 was fun" = 90 := by decide
example : remove_timestamp_from_text "at 12:34 see 5:00" = "see" := by decide
example : remove_timestamp_from_text "go at 12:34 ok" = "go ok" := by decide

/-! ## Helper lemmas about the importer -/


lemma makeRequest_allFail {trans : Nat → PostResult} (h : AllFail trans) (n : Nat) :
    ∃ e, makeRequest trans n = .error e := by
  rcases h n with hx | ⟨s, b, hr, hs⟩
  · exact ⟨.conn, by simp [makeRequest, hx]⟩
  · exact ⟨.http s, by simp [makeRequest, hr, hs]⟩

lemma retryAux_allFail {trans : Nat → PostResult} (h : AllFail trans) :
    ∀ rem n d, ∃ e m ds, retryAux trans rem n d = (.error e, m, ds) := by
  intro rem
  induction rem with
  | zero =>
    intro n d
    obtain ⟨e, he⟩ := makeRequest_allFail h n
    exact ⟨e, n + 1, [], by simp [retryAux, he]⟩
  | succ r ih =>
    intro n d
    obtain ⟨e, he⟩ := makeRequest_allFail h n
    obtain ⟨e2, m2, ds2, h2⟩ := ih (n + 1) (min (d * 2) 60)
    exact ⟨e2, m2, d :: ds2, by simp [retryAux, he, h2]⟩

lemma importSingle500_allFail {trans : Nat → PostResult} (h : AllFail trans)
    (mr n : Nat) : ∃ e m ds, importSingle500 trans mr n = (.error e, m, ds) := by
  rcases h n with hx | ⟨s, b, hr, hs⟩
  · obtain ⟨e, m, ds, hra⟩ := retryAux_allFail h mr (n + 1) 1
    exact ⟨e, m, ds, by simp [importSingle500, hx, hra]⟩
  · by_cases h500 : s = 500
    · subst h500
      rcases h (n + 1) with hx2 | ⟨s2, b2, hr2, hs2⟩
      · obtain ⟨e, m, ds, hra⟩ := retryAux_allFail h mr (n + 2) 1
        exact ⟨e, m, 2 :: ds, by simp [importSingle500, hr, hx2, hra]⟩
      · by_cases h5002 : s2 = 500
        · subst h5002
          exact ⟨.http 500, n + 2, [2], by simp [importSingle500, hr, hr2]⟩
        · obtain ⟨e, m, ds, hra⟩ := retryAux_allFail h mr (n + 2) 1
          exact ⟨e, m, 2 :: ds, by simp [importSingle500, hr, hr2, hs2, h5002, hra]⟩
    · obtain ⟨e, m, ds, hra⟩ := retryAux_allFail h mr (n + 1) 1
      exact ⟨e, m, ds, by simp [importSingle500, hr, hs, h500, hra]⟩

/-- Every loop iteration increments exactly one of the two counters. -/
lemma importStep_sum (trans : Nat → PostResult) (mr : Nat) (dry : Bool)
    (aid : String) (idx : Nat) (r : ImpRec) (st : LoopSt) :
    (importStep trans mr dry aid idx r st).imported
      + (importStep trans mr dry aid idx r st).failed
      = st.imported + st.failed + 1 := by
  unfold importStep
  by_cases hd : dry
  · simp [hd]; omega
  · simp only [hd, if_false, Bool.false_eq_true]
    rcases hres : (importSingle500 trans mr st.callIdx).1 with e | body
    · simp [hres]; omega
    · rcases body with _ | id
      · simp [hres]; omega
      · by_cases hid : id = "" <;> simp [hres, hid] <;> omega

/-- Every loop iteration appends exactly the payload built from the
current parent map. -/
lemma importStep_payloads (trans : Nat → PostResult) (mr : Nat) (dry : Bool)
    (aid : String) (idx : Nat) (r : ImpRec) (st : LoopSt) :
    (importStep trans mr dry aid idx r st).payloads
      = st.payloads ++ [mkPayload st.parentMap aid r] := by
  unfold importStep
  by_cases hd : dry
  · simp [hd]
  · simp only [hd, if_false, Bool.false_eq_true]
    rcases hres : (importSingle500 trans mr st.callIdx).1 with e | body
    · simp [hres]
    · rcases body with _ | id
      · simp [hres]
      · by_cases hid : id = "" <;> simp [hres, hid]

lemma importLoop_sum (trans : Nat → PostResult) (mr : Nat) (dry : Bool)
    (aid : String) :
    ∀ (l : List ImpRec) (idx : Nat) (st : LoopSt),
      (importLoop trans mr dry aid idx l st).imported
        + (importLoop trans mr dry aid idx l st).failed
        = st.imported + st.failed + l.length := by
  intro l
  induction l with
  | nil => intro idx st; simp [importLoop]
  | cons r rs ih =>
    intro idx st
    have h1 := importStep_sum trans mr dry aid idx r st
    have h2 := ih (idx + 1) (importStep trans mr dry aid idx r st)
    simp only [importLoop, List.length_cons] at *
    omega

lemma importLoop_payloads_len (trans : Nat → PostResult) (mr : Nat) (dry : Bool)
    (aid : String) :
    ∀ (l : List ImpRec) (idx : Nat) (st : LoopSt),
      (importLoop trans mr dry aid idx l st).payloads.length
        = st.payloads.length + l.length := by
  intro l
  induction l with
  | nil => intro idx st; simp [importLoop]
  | cons r rs ih =>
    intro idx st
    have h1 := importStep_payloads trans mr dry aid idx r st
    have h2 := ih (idx + 1) (importStep trans mr dry aid idx r st)
    simp only [importLoop] at *
    rw [h2, h1]
    simp
    omega

/-- On a transport where every post fails, each non-dry-run iteration
leaves imported alone and increments failed. -/
lemma importStep_allFail {trans : Nat → PostResult} (h : AllFail trans)
    (mr : Nat) (aid : String) (idx : Nat) (r : ImpRec) (st : LoopSt) :
    (importStep trans mr false aid idx r st).imported = st.imported ∧
    (importStep trans mr false aid idx r st).failed = st.failed + 1 := by
  obtain ⟨e, m, ds, hres⟩ := importSingle500_allFail h mr st.callIdx
  unfold importStep
  simp [hres]

lemma importLoop_allFail {trans : Nat → PostResult} (h : AllFail trans)
    (mr : Nat) (aid : String) :
    ∀ (l : List ImpRec) (idx : Nat) (st : LoopSt),
      (importLoop trans mr false aid idx l st).imported = st.imported ∧
      (importLoop trans mr false aid idx l st).failed = st.failed + l.length := by
  intro l
  induction l with
  | nil => intro idx st; simp [importLoop]
  | cons r rs ih =>
    intro idx st
    obtain ⟨hi, hf⟩ := importStep_allFail h mr aid idx r st
    obtain ⟨hi2, hf2⟩ := ih (idx + 1) (importStep trans mr false aid idx r st)
    simp only [importLoop] at *
    constructor
    · rw [hi2, hi]
    · rw [hf2, hf]; simp; omega

/-! ## Claim C4 -/

/-- Claim C4: the process_list call in ingest.main passes the keyword
argument skip_live_chat, which BatchProcessor.process_list does not
declare, so the call raises TypeError at binding time, independent of
the argument values; the surrounding handler takes the fatal-error path
and the run exits with code 1 before any video is processed. -/
theorem c4_skip_live_chat_type_error :
    pyUnexpectedKeyword process_list_params main_process_list_kwargs = true ∧
    "skip_live_chat" ∈ main_process_list_kwargs ∧
    "skip_live_chat" ∉ process_list_params ∧
    mainBatchPhase = RunEnd.exited 1 0 := by decide

/-! ## Claim C5 -/

/-- Claim C5: the imported and failed counters are instance state.
import_comments adds the outcome of each record of the current call on
top of whatever the counters already hold, and returns total equal to
the current record-list length only; import_live_chats is exactly
import_comments started from zeroed counters.  Hence a prior non-zero
counter sum makes imported plus failed exceed the returned total. -/
theorem c5_counter_accumulation :
    (∀ (trans : Nat → PostResult) (mr : Nat) (dry : Bool) (comments : List ImpRec)
        (aid : String) (i0 f0 : Nat),
      (import_comments trans mr dry comments aid i0 f0).imported
        + (import_comments trans mr dry comments aid i0 f0).failed
        = i0 + f0 + comments.length) ∧
    (∀ (trans : Nat → PostResult) (mr : Nat) (dry : Bool) (lcs : List ImpRec)
        (aid : String) (i0 f0 : Nat),
      import_live_chats trans mr dry lcs aid i0 f0
        = import_comments trans mr dry lcs aid 0 0) ∧
    (∀ (trans : Nat → PostResult) (mr : Nat) (dry : Bool) (comments : List ImpRec)
        (aid : String) (i0 f0 : Nat), 0 < i0 + f0 →
      comments.length <
        (import_comments trans mr dry comments aid i0 f0).imported
          + (import_comments trans mr dry comments aid i0 f0).failed) := by
  refine ⟨?_, ?_, ?_⟩
  · intro trans mr dry comments aid i0 f0
    have := importLoop_sum trans mr dry aid comments 1 (initLoopSt i0 f0)
    simpa [import_comments, initLoopSt] using this
  · intro trans mr dry lcs aid i0 f0
    rfl
  · intro trans mr dry comments aid i0 f0 hpos
    have h := importLoop_sum trans mr dry aid comments 1 (initLoopSt i0 f0)
    have hi : (initLoopSt i0 f0).imported = i0 := rfl
    have hf : (initLoopSt i0 f0).failed = f0 := rfl
    simp only [import_comments]
    rw [hi, hf] at h
    omega



theorem c5_witness :
    0 < 2 + 1 ∧
    ([rec0] : List ImpRec).length <
      (import_comments transOk 3 false [rec0] "A" 2 1).imported
        + (import_comments transOk 3 false [rec0] "A" 2 1).failed :=
  ⟨by decide, c5_counter_accumulation.2.2 transOk 3 false [rec0] "A" 2 1 (by decide)⟩

/-! ## Claim C2 -/


/-- Claim C2 counterexample: with a transport that always answers 404,
one record costs five posts (call index advances from 0 to 5) with
backoff sleeps of 1, 2 and 4 seconds before the record fails: the code
does retry a non-transient 4xx, not fail it immediately. -/
theorem c2_4xx_is_retried :
    importSingle500 trans404 3 0 = (.error (.http 404), 5, [1, 2, 4]) := rfl

/-- Claim C2 (amended): a 4xx response is not final: the HTTPError is
routed to the retry_with_backoff wrapper, so the record is transmitted
five times in total (the initial post plus four wrapper attempts) with
sleeps 1, 2, 4 between the wrapper attempts, and only then counted as
failed; the loop still continues with every remaining record (on an
always-failing transport every record is attempted: one payload per
record, failed grows by the batch length, imported is untouched). -/
theorem c2_4xx_retry_then_fail_continue :
    (∀ (trans : Nat → PostResult) (s n : Nat), 400 ≤ s → s < 500 →
      (∀ k, ∃ b, trans k = PostResult.resp s b) →
      importSingle500 trans 3 n = (.error (.http s), n + 5, [1, 2, 4])) ∧
    (∀ (trans : Nat → PostResult) (records : List ImpRec) (aid : String) (i0 f0 : Nat),
      AllFail trans →
      (import_comments trans 3 false records aid i0 f0).imported = i0 ∧
      (import_comments trans 3 false records aid i0 f0).failed = f0 + records.length ∧
      (import_comments trans 3 false records aid i0 f0).payloads.length
        = records.length) := by
  constructor
  · intro trans s n h400 h500 htr
    obtain ⟨b0, h0⟩ := htr n
    obtain ⟨b1, h1⟩ := htr (n + 1)
    obtain ⟨b2, h2⟩ := htr (n + 2)
    obtain ⟨b3, h3⟩ := htr (n + 3)
    obtain ⟨b4, h4⟩ := htr (n + 4)
    have hne : s ≠ 500 := by omega
    simp [importSingle500, retryAux, makeRequest, h0, h1, h2, h3, h4, h400, hne]
  · intro trans records aid i0 f0 hfail
    obtain ⟨hi, hf⟩ := importLoop_allFail hfail 3 aid records 1 (initLoopSt i0 f0)
    have hlen := importLoop_payloads_len trans 3 false aid records 1 (initLoopSt i0 f0)
    refine ⟨?_, ?_, ?_⟩
    · simpa [import_comments, initLoopSt] using hi
    · simpa [import_comments, initLoopSt] using hf
    · simpa [import_comments, initLoopSt] using hlen

theorem c2_witness :
    400 ≤ 404 ∧ 404 < 500 ∧
    importSingle500 trans404 3 10 = (.error (.http 404), 15, [1, 2, 4]) :=
  ⟨by decide, by decide,
    c2_4xx_retry_then_fail_continue.1 trans404 404 10 (by decide) (by decide)
      (fun _ => ⟨none, rfl⟩)⟩

/-! ## Claim C3 -/



/-- Claim C3 counterexample: with a transport that always answers 500,
the record is retried exactly once after a fixed sleep of 2 seconds and
then fails (two posts in total): no exponential backoff starting at 1
second and no three retries for this 5xx status. -/
theorem c3_500_single_fixed_delay_retry :
    importSingle500 trans500 3 0 = (.error (.http 500), 2, [2]) := rfl

/-- Claim C3 (amended): connection errors and timeouts go to the
backoff wrapper, which makes four further posts after the failed initial
one, sleeping 1, 2, 4 seconds between wrapper attempts (the cap of 60 is
never reached with three wrapper retries); every non-500 error status,
including the remaining 5xx statuses such as 502 and 503 and the 4xx
range alike, takes the same wrapper path with the same four further
posts and sleeps; a 500 response instead gets exactly one retry after a
fixed 2 second sleep and, if the retry is again a 500, the record fails
with no further attempts.  After exhaustion the record is counted as
failed and the batch continues with the remaining records. -/
theorem c3_transient_retry_behavior :
    (∀ (trans : Nat → PostResult) (n : Nat), (∀ k, trans k = PostResult.exn) →
      importSingle500 trans 3 n = (.error .conn, n + 5, [1, 2, 4])) ∧
    (∀ (trans : Nat → PostResult) (s n : Nat), 400 ≤ s → s ≠ 500 →
      (∀ k, ∃ b, trans k = PostResult.resp s b) →
      importSingle500 trans 3 n = (.error (.http s), n + 5, [1, 2, 4])) ∧
    (∀ (trans : Nat → PostResult) (n : Nat),
      (∀ k, ∃ b, trans k = PostResult.resp 500 b) →
      importSingle500 trans 3 n = (.error (.http 500), n + 2, [2])) ∧
    (∀ (trans : Nat → PostResult) (records : List ImpRec) (aid : String) (i0 f0 : Nat),
      (∀ k, trans k = PostResult.exn) →
      (import_comments trans 3 false records aid i0 f0).imported = i0 ∧
      (import_comments trans 3 false records aid i0 f0).failed
        = f0 + records.length) := by
  refine ⟨?_, ?_, ?_, ?_⟩
  · intro trans n htr
    simp [importSingle500, retryAux, makeRequest, htr n, htr (n + 1), htr (n + 2),
      htr (n + 3), htr (n + 4)]
  · intro trans s n h400 hne htr
    obtain ⟨b0, h0⟩ := htr n
    obtain ⟨b1, h1⟩ := htr (n + 1)
    obtain ⟨b2, h2⟩ := htr (n + 2)
    obtain ⟨b3, h3⟩ := htr (n + 3)
    obtain ⟨b4, h4⟩ := htr (n + 4)
    simp [importSingle500, retryAux, makeRequest, h0, h1, h2, h3, h4, h400, hne]
  · intro trans n htr
    obtain ⟨b0, h0⟩ := htr n
    obtain ⟨b1, h1⟩ := htr (n + 1)
    simp [importSingle500, h0, h1]
  · intro trans records aid i0 f0 htr
    have hfail : AllFail trans := fun k => Or.inl (htr k)
    obtain ⟨hi, hf⟩ := importLoop_allFail hfail 3 aid records 1 (initLoopSt i0 f0)
    constructor
    · simpa [import_comments, initLoopSt] using hi
    · simpa [import_comments, initLoopSt] using hf

theorem c3_witness :
    importSingle500 transExn 3 0 = (.error .conn, 5, [1, 2, 4]) ∧
    importSingle500 trans502 3 7 = (.error (.http 502), 12, [1, 2, 4]) ∧
    importSingle500 trans500 3 4 = (.error (.http 500), 6, [2]) :=
  ⟨c3_transient_retry_behavior.1 transExn 0 (fun _ => rfl),
    c3_transient_retry_behavior.2.1 trans502 502 7 (by decide) (by decide)
      (fun _ => ⟨none, rfl⟩),
    c3_transient_retry_behavior.2.2.1 trans500 4 (fun _ => ⟨none, rfl⟩)⟩

/-! ## Claim C10 -/

/-- Every run of _refresh_token either reports success or returns the
state untouched. -/
lemma refresh_cases (st : CredState) (resp : RefreshResp) :
    (refresh_token_call st resp).1 = true ∨
      refresh_token_call st resp = (false, st) := by
  unfold refresh_token_call
  by_cases h1 : (!optTruthy st.backend_url) = true
  · right; simp [h1]
  · by_cases h2 : (!optTruthy st.refresh_token) = true
    · right; simp [h1, h2]
    · by_cases h3 : st.dry_run = true
      · left; simp [h1, h2, h3]
      · rcases resp with ⟨status, body⟩ | _
        · by_cases hst : status ≠ 200
          · right; simp [h1, h2, h3, hst]
          · by_cases herr : body.hasErrors = true
            · right; simp [h1, h2, h3, hst, herr]
            · rcases hres : body.result with _ | result
              · right; simp [h1, h2, h3, hst, herr, hres]
              · rcases htok : result.token with _ | t
                · right; simp [h1, h2, h3, hst, herr, hres, htok]
                · by_cases ht : t = ""
                  · right; simp [h1, h2, h3, hst, herr, hres, htok, ht]
                  · left
                    rcases hrt : result.refreshToken with _ | rt
                    · simp [h1, h2, h3, hst, herr, hres, htok, ht, hrt]
                    · by_cases hrte : rt = "" <;>
                        simp [h1, h2, h3, hst, herr, hres, htok, ht, hrt, hrte]
        · right; simp [h1, h2, h3]

/-- A successful non-dry-run refresh carries a 200 response with a
non-empty token, and installs that token as the bearer token. -/
lemma refresh_success (st : CredState) (resp : RefreshResp)
    (h : (refresh_token_call st resp).1 = true) (hdry : st.dry_run = false) :
    ∃ body result new_token,
      resp = RefreshResp.resp 200 body ∧ body.result = some result ∧
      result.token = some new_token ∧ new_token ≠ "" ∧
      (refresh_token_call st resp).2.jwt_token = new_token := by
  unfold refresh_token_call at h ⊢
  by_cases h1 : (!optTruthy st.backend_url) = true
  · simp [h1] at h
  · by_cases h2 : (!optTruthy st.refresh_token) = true
    · simp [h1, h2] at h
    · have h3 : ¬st.dry_run = true := by simp [hdry]
      rcases resp with ⟨status, body⟩ | _
      · by_cases hst : status ≠ 200
        · simp [h1, h2, h3, hst] at h
        · have hs200 : status = 200 := by omega
          subst hs200
          by_cases herr : body.hasErrors = true
          · simp [h1, h2, h3, herr] at h
          · rcases hres : body.result with _ | result
            · simp [h1, h2, h3, herr, hres] at h
            · rcases htok : result.token with _ | t
              · simp [h1, h2, h3, herr, hres, htok] at h
              · by_cases ht : t = ""
                · simp [h1, h2, h3, herr, hres, htok, ht] at h
                · refine ⟨body, result, t, rfl, hres, htok, ht, ?_⟩
                  rcases hrt : result.refreshToken with _ | rt
                  · simp [h1, h2, h3, herr, hres, htok, ht, hrt]
                  · by_cases hrte : rt = "" <;>
                      simp [h1, h2, h3, herr, hres, htok, ht, hrt, hrte]
      · simp [h1, h2, h3] at h

/-- Claim C10: whenever _refresh_token returns false (no backend url,
missing refresh token, request exception, non-200 status, GraphQL
errors, empty result object, missing or empty new token), the credential
state is exactly what it was; on a true outcome of a real (non-dry-run)
call, the response carried a 200 status with a non-empty token, and the
stored bearer token is mutated to that token. -/
theorem c10_refresh_failure_preserves_tokens :
    (∀ (st : CredState) (resp : RefreshResp),
      (refresh_token_call st resp).1 = false → (refresh_token_call st resp).2 = st) ∧
    (∀ (st : CredState) (resp : RefreshResp),
      (refresh_token_call st resp).1 = true → st.dry_run = false →
      ∃ body result new_token,
        resp = RefreshResp.resp 200 body ∧ body.result = some result ∧
        result.token = some new_token ∧ new_token ≠ "" ∧
        (refresh_token_call st resp).2.jwt_token = new_token) := by
  constructor
  · intro st resp h
    rcases refresh_cases st resp with htrue | hfalse
    · rw [htrue] at h; cases h
    · rw [hfalse]
  · intro st resp h hdry
    exact refresh_success st resp h hdry


/-! ## Helper lemmas about the anonymizer memo -/


lemma randExtend_refl (st : RandState) : RandExtend st st :=
  ⟨fun _ _ h => h, fun _ _ h => h, fun _ _ h => h⟩

lemma randExtend_trans {a b c : RandState} (h1 : RandExtend a b) (h2 : RandExtend b c) :
    RandExtend a c :=
  ⟨fun n v h => h2.1 n v (h1.1 n v h),
   fun n v h => h2.2.1 n v (h1.2.1 n v h),
   fun n v h => h2.2.2 n v (h1.2.2 n v h)⟩

lemma mapInsert_keeps {m : String → Option String} {k v : String}
    (hk : m k = none) : ∀ n w, m n = some w → mapInsert m k v n = some w := by
  intro n w hw
  unfold mapInsert
  by_cases hn : n = k
  · subst hn; rw [hk] at hw; cases hw
  · simp [hn, hw]

lemma get_randomized_name_hit (E : Entropy) (st : RandState) (n v : String)
    (h : st.name_map n = some v) : get_randomized_name E st n = (v, st) := by
  unfold get_randomized_name; rw [h]

lemma get_random_avatar_hit (E : Entropy) (st : RandState) (n v : String)
    (h : st.avatar_map n = some v) : get_random_avatar E st n = (v, st) := by
  unfold get_random_avatar; rw [h]

lemma get_user_id_hit (E : Entropy) (st : RandState) (n v : String)
    (h : st.user_id_map n = some v) : get_user_id E st n = (v, st) := by
  unfold get_user_id; rw [h]

lemma get_randomized_name_mapped (E : Entropy) (st : RandState) (n : String) :
    (get_randomized_name E st n).2.name_map n = some (get_randomized_name E st n).1 := by
  unfold get_randomized_name
  rcases h : st.name_map n with _ | v
  · simp [mapInsert]
  · simp [h]

lemma get_random_avatar_mapped (E : Entropy) (st : RandState) (n : String) :
    (get_random_avatar E st n).2.avatar_map n = some (get_random_avatar E st n).1 := by
  unfold get_random_avatar
  rcases h : st.avatar_map n with _ | v
  · simp [mapInsert]
  · simp [h]

lemma get_user_id_mapped (E : Entropy) (st : RandState) (n : String) :
    (get_user_id E st n).2.user_id_map n = some (get_user_id E st n).1 := by
  unfold get_user_id
  rcases h : st.user_id_map n with _ | v
  · simp [mapInsert]
  · simp [h]

lemma get_randomized_name_extend (E : Entropy) (st : RandState) (n : String) :
    RandExtend st (get_randomized_name E st n).2 := by
  unfold get_randomized_name
  rcases h : st.name_map n with _ | v
  · exact ⟨mapInsert_keeps h, fun _ _ hw => hw, fun _ _ hw => hw⟩
  · exact randExtend_refl st

lemma get_random_avatar_extend (E : Entropy) (st : RandState) (n : String) :
    RandExtend st (get_random_avatar E st n).2 := by
  unfold get_random_avatar
  rcases h : st.avatar_map n with _ | v
  · exact ⟨fun _ _ hw => hw, mapInsert_keeps h, fun _ _ hw => hw⟩
  · exact randExtend_refl st

lemma get_user_id_extend (E : Entropy) (st : RandState) (n : String) :
    RandExtend st (get_user_id E st n).2 := by
  unfold get_user_id
  rcases h : st.user_id_map n with _ | v
  · exact ⟨fun _ _ hw => hw, fun _ _ hw => hw, mapInsert_keeps h⟩
  · exact randExtend_refl st

lemma anonymize_comment_extend (E : Entropy) (st : RandState) (f : AFields) :
    RandExtend st (anonymize_comment E st f).2 := by
  unfold anonymize_comment
  rcases hu : f.user_name with _ | s
  · exact randExtend_trans (get_random_avatar_extend E st _)
      (get_user_id_extend E _ _)
  · exact randExtend_trans (get_randomized_name_extend E st _)
      (randExtend_trans (get_random_avatar_extend E _ _) (get_user_id_extend E _ _))

lemma anonymizeList_extend (E : Entropy) :
    ∀ (fs : List AFields) (st : RandState), RandExtend st (anonymizeList E st fs).2 := by
  intro fs
  induction fs with
  | nil => intro st; exact randExtend_refl st
  | cons f fs ih =>
    intro st
    exact randExtend_trans (anonymize_comment_extend E st f)
      (ih (anonymize_comment E st f).2)

lemma anonymize_comments_extend (E : Entropy) :
    ∀ (cs : List AComment) (st : RandState),
      RandExtend st (anonymize_comments E st cs).2 := by
  intro cs
  induction cs with
  | nil => intro st; exact randExtend_refl st
  | cons c cs ih =>
    intro st
    simp only [anonymize_comments]
    by_cases hr : c.replies = []
    · simp only [hr, if_pos]
      exact randExtend_trans (anonymize_comment_extend E st c.fields) (ih _)
    · simp only [if_neg hr]
      exact randExtend_trans (anonymize_comment_extend E st c.fields)
        (randExtend_trans (anonymizeList_extend E c.replies _) (ih _))

/-- Computation shape of anonymize_comment on a record with a
user_name key. -/
lemma anonymize_comment_some (E : Entropy) (st : RandState) (s p q : String) :
    anonymize_comment E st ⟨some s, p, q⟩ =
      ({ user_name := some (get_randomized_name E st s).1
       , profile_picture :=
           (get_random_avatar E (get_randomized_name E st s).2 s).1
       , created_by_id :=
           (get_user_id E (get_random_avatar E (get_randomized_name E st s).2 s).2 s).1 },
       (get_user_id E (get_random_avatar E (get_randomized_name E st s).2 s).2 s).2) := rfl

/-- Computation shape of anonymize_comment on a record without a
user_name key: the literal name Unknown is used and the name map is not
consulted. -/
lemma anonymize_comment_none (E : Entropy) (st : RandState) (p q : String) :
    anonymize_comment E st ⟨none, p, q⟩ =
      ({ user_name := none
       , profile_picture := (get_random_avatar E st "Unknown").1
       , created_by_id :=
           (get_user_id E (get_random_avatar E st "Unknown").2 "Unknown").1 },
       (get_user_id E (get_random_avatar E st "Unknown").2 "Unknown").2) := rfl

/-- Replaying the anonymizer on a record with the same original name,
from any state whose memo maps extend the state reached after the first
anonymization, reproduces the first output and leaves the state
unchanged. -/
lemma anonymize_comment_replay (E : Entropy) (st : RandState) (f f2 : AFields)
    (stB : RandState) (hext : RandExtend (anonymize_comment E st f).2 stB)
    (hname : f2.user_name = f.user_name) :
    anonymize_comment E stB f2 = ((anonymize_comment E st f).1, stB) := by
  obtain ⟨fu, fp, fq⟩ := f
  obtain ⟨gu, gp, gq⟩ := f2
  simp only at hname
  subst hname
  rcases gu with _ | s
  · -- no user_name key: the name map is not consulted
    rw [anonymize_comment_none] at hext
    simp only at hext
    have hav := get_random_avatar_mapped E st "Unknown"
    have hid := get_user_id_mapped E (get_random_avatar E st "Unknown").2 "Unknown"
    have havB : stB.avatar_map "Unknown"
        = some (get_random_avatar E st "Unknown").1 :=
      hext.2.1 _ _
        ((get_user_id_extend E (get_random_avatar E st "Unknown").2 "Unknown").2.1 _ _ hav)
    have hidB : stB.user_id_map "Unknown"
        = some (get_user_id E (get_random_avatar E st "Unknown").2 "Unknown").1 :=
      hext.2.2 _ _ hid
    simp [anonymize_comment_none, get_random_avatar_hit E stB "Unknown" _ havB,
      get_user_id_hit E stB "Unknown" _ hidB]
  · -- user_name present: all three maps hold the original name afterwards
    rw [anonymize_comment_some] at hext
    simp only at hext
    have hnm := get_randomized_name_mapped E st s
    have hav := get_random_avatar_mapped E (get_randomized_name E st s).2 s
    have hid :=
      get_user_id_mapped E (get_random_avatar E (get_randomized_name E st s).2 s).2 s
    have hnmB : stB.name_map s = some (get_randomized_name E st s).1 :=
      hext.1 _ _
        ((get_user_id_extend E (get_random_avatar E (get_randomized_name E st s).2 s).2 s).1 _ _
          ((get_random_avatar_extend E (get_randomized_name E st s).2 s).1 _ _ hnm))
    have havB : stB.avatar_map s
        = some (get_random_avatar E (get_randomized_name E st s).2 s).1 :=
      hext.2.1 _ _
        ((get_user_id_extend E (get_random_avatar E (get_randomized_name E st s).2 s).2 s).2.1
          _ _ hav)
    have hidB : stB.user_id_map s
        = some (get_user_id E (get_random_avatar E (get_randomized_name E st s).2 s).2 s).1 :=
      hext.2.2 _ _ hid
    simp [anonymize_comment_some, get_randomized_name_hit E stB s _ hnmB,
      get_random_avatar_hit E stB s _ havB, get_user_id_hit E stB s _ hidB]

lemma anonymizeList_replay (E : Entropy) :
    ∀ (fs : List AFields) (st stB : RandState),
      RandExtend (anonymizeList E st fs).2 stB →
      anonymizeList E stB fs = ((anonymizeList E st fs).1, stB) := by
  intro fs
  induction fs with
  | nil => intro st stB _; rfl
  | cons f fs ih =>
    intro st stB hext
    have htail : RandExtend (anonymizeList E (anonymize_comment E st f).2 fs).2 stB := by
      simpa [anonymizeList] using hext
    have hhead : RandExtend (anonymize_comment E st f).2 stB :=
      randExtend_trans (anonymizeList_extend E fs (anonymize_comment E st f).2) htail
    have h1 := anonymize_comment_replay E st f f stB hhead rfl
    have h2 := ih (anonymize_comment E st f).2 stB htail
    simp [anonymizeList, h1, h2]

lemma anonymize_comments_replay (E : Entropy) :
    ∀ (cs : List AComment) (st stB : RandState),
      RandExtend (anonymize_comments E st cs).2 stB →
      anonymize_comments E stB cs = ((anonymize_comments E st cs).1, stB) := by
  intro cs
  induction cs with
  | nil => intro st stB _; rfl
  | cons c cs ih =>
    intro st stB hext
    by_cases hr : c.replies = []
    · have htail : RandExtend
          (anonymize_comments E (anonymize_comment E st c.fields).2 cs).2 stB := by
        simpa [anonymize_comments, hr] using hext
      have hhead : RandExtend (anonymize_comment E st c.fields).2 stB :=
        randExtend_trans (anonymize_comments_extend E cs _) htail
      have h1 := anonymize_comment_replay E st c.fields c.fields stB hhead rfl
      have h2 := ih (anonymize_comment E st c.fields).2 stB htail
      simp [anonymize_comments, hr, h1, h2]
    · have htail : RandExtend
          (anonymize_comments E
            (anonymizeList E (anonymize_comment E st c.fields).2 c.replies).2 cs).2 stB := by
        simpa [anonymize_comments, hr] using hext
      have hlist : RandExtend
          (anonymizeList E (anonymize_comment E st c.fields).2 c.replies).2 stB :=
        randExtend_trans (anonymize_comments_extend E cs _) htail
      have hhead : RandExtend (anonymize_comment E st c.fields).2 stB :=
        randExtend_trans (anonymizeList_extend E c.replies _) hlist
      have h1 := anonymize_comment_replay E st c.fields c.fields stB hhead rfl
      have h2 := anonymizeList_replay E c.replies (anonymize_comment E st c.fields).2 stB hlist
      have h3 := ih (anonymizeList E (anonymize_comment E st c.fields).2 c.replies).2 stB htail
      simp [anonymize_comments, hr, h1, h2, h3]

/-! ## Claim C6 -/




/-- Claim C6 counterexample: running anonymize_comments twice in
sequence over the same (in-place mutated) one-record list changes the
already-anonymized fields again: the second pass memoizes under the
anonymized name Fred_1, rolls a fresh display name Fred_2 and draws a
fresh pseudo-id uuid-1. -/
theorem c6_second_pass_changes_fields :
    (anonymize_comments entropy0 randState0 [fred0]).1
      = [{ fields := { user_name := some "Fred_1"
                     , profile_picture := (get_random_avatar entropy0 randState0 "Fred23").1
                     , created_by_id := "uuid-0" }
         , replies := [] }] ∧
    ((anonymize_comments entropy0 (anonymize_comments entropy0 randState0 [fred0]).2
        (anonymize_comments entropy0 randState0 [fred0]).1).1.map
      (fun c => (c.fields.user_name, c.fields.created_by_id)))
      = [(some "Fred_2", "uuid-1")] := by
  constructor
  · rfl
  · rfl

/-- Claim C6 (amended): the anonymizer is not idempotent on the mutated
list (see the counterexample: the second pass treats the anonymized
display name as a new original and reassigns all three fields); what
does hold is stability through the memo: re-running the anonymizer, from
the state left by the first run, over records carrying the same original
names (the original list) reproduces exactly the first output and leaves
the memo state unchanged. -/
theorem c6_reanonymize_with_memo_is_stable (E : Entropy) (st : RandState)
    (cs : List AComment) :
    anonymize_comments E (anonymize_comments E st cs).2 cs
      = anonymize_comments E st cs := by
  have h := anonymize_comments_replay E cs st (anonymize_comments E st cs).2
    (randExtend_refl _)
  rw [h]

/-! ## Claim C1 -/


lemma filter_map_comm {α β : Type} (f : α → β) (p : β → Bool) :
    ∀ l : List α, (l.map f).filter p = (l.filter fun x => p (f x)).map f := by
  intro l
  induction l with
  | nil => rfl
  | cons x xs ih =>
    by_cases h : p (f x) <;> simp [List.filter, h, ih]

lemma mapParent_commented_at (raw : RawComment) :
    (mapParent raw).commented_at = some (extract_timestamp (raw.text.getD "")) := rfl

lemma mapReply_commented_at (raw : RawComment) :
    (mapReply raw).commented_at = some (extract_timestamp (raw.text.getD "")) := rfl



/-- Claim C1 counterexample: for the flat list [P, R] where reply R has
the detected timestamp 90 and its parent P has none, the pipeline
(_process_flat_comments followed by the commented_at filter of
process_video) keeps only R: the parent P is dropped, no minimum offset
is assigned to it, so both records are not emitted. -/
theorem c1_untimed_parent_dropped :
    (filterWithTimestamp (processFlatComments [rawP, rawR])).map (fun c => c.yt_id)
        = [some "r1"] ∧
    extract_timestamp "nice video" = 0 ∧
    extract_timestamp "at 1:30 great moment" = 90 := by decide

/-- Claim C1 (amended): there is no parent-repair step.  The importable
set is exactly the records whose own extracted timestamp is positive: a
timestamped reply is kept, its untimed parent is dropped (no synthesized
inclusion, no minimum-offset assignment), and the emitted order is all
qualifying root comments first, then all qualifying replies, each group
in source order (not the interleaved original order). -/
theorem c1_filter_keeps_only_timestamped (entries : List RawComment) :
    filterWithTimestamp (processFlatComments entries) =
      ((entries.filter isRoot).filter hasTsRaw).map mapParent
        ++ ((entries.filter fun e => !isRoot e).filter hasTsRaw).map mapReply := by
  unfold filterWithTimestamp processFlatComments
  rw [List.filter_append, filter_map_comm, filter_map_comm]
  rfl

/-! ## Claim C9 -/


lemma importLoop_payloads_trace (trans : Nat → PostResult) (mr : Nat) (dry : Bool)
    (aid : String) :
    ∀ (l : List ImpRec) (idx : Nat) (st : LoopSt),
      (importLoop trans mr dry aid idx l st).payloads
        = st.payloads ++ payloadTrace trans mr dry aid idx l st := by
  intro l
  induction l with
  | nil => intro idx st; simp [importLoop, payloadTrace]
  | cons r rs ih =>
    intro idx st
    have h1 := importStep_payloads trans mr dry aid idx r st
    simp only [importLoop, payloadTrace]
    rw [ih (idx + 1) (importStep trans mr dry aid idx r st), h1]
    simp

lemma payloadTrace_length (trans : Nat → PostResult) (mr : Nat) (dry : Bool)
    (aid : String) :
    ∀ (l : List ImpRec) (idx : Nat) (st : LoopSt),
      (payloadTrace trans mr dry aid idx l st).length = l.length := by
  intro l
  induction l with
  | nil => intro idx st; rfl
  | cons r rs ih =>
    intro idx st
    simp [payloadTrace, ih]

lemma payloadTrace_get (trans : Nat → PostResult) (mr : Nat) (dry : Bool)
    (aid : String) :
    ∀ (l : List ImpRec) (idx : Nat) (st : LoopSt) (i : Nat) (h : i < l.length)
      (h2 : i < (payloadTrace trans mr dry aid idx l st).length),
      (payloadTrace trans mr dry aid idx l st).get ⟨i, h2⟩
        = mkPayload ((importLoop trans mr dry aid idx (l.take i) st).parentMap) aid
            (l.get ⟨i, h⟩) := by
  intro l
  induction l with
  | nil => intro idx st i h h2; cases h
  | cons r rs ih =>
    intro idx st i h h2
    cases i with
    | zero => rfl
    | succ j =>
      have hj : j < rs.length := by simpa using h
      have hj2 : j < (payloadTrace trans mr dry aid (idx + 1) rs
          (importStep trans mr dry aid idx r st)).length := by
        simpa [payloadTrace] using h2
      have := ih (idx + 1) (importStep trans mr dry aid idx r st) j hj hj2
      simpa [payloadTrace, List.take, importLoop] using this





/-- Claim C9 counterexample: the code tests Python truthiness, not
non-nullness.  Record recA with the empty-string source id imports
successfully, so the empty string is a key of the per-call parent map;
record recB carries the non-null parent identifier some "" whose parent
was imported earlier in the same call, yet its payload omits the parent
reference (both payloads carry none). -/
theorem c9_empty_parent_id_corner :
    ((import_comments transId 3 false [recA, recB] "A" 0 0).payloads.map
        (fun p => p.parent_id)) = [none, none] ∧
    (import_comments transId 3 false [recA, recB] "A" 0 0).parentMap "" = some "id0" ∧
    recB.parent_id = some "" ∧ recB.parent_id ≠ none :=
  ⟨rfl, rfl, rfl, by decide⟩

/-- Claim C9 (amended): exactly one payload is built per record, in
order (a reply whose parent failed to import is still attempted), and a
payload carries the parent reference field if and only if the record's
parent identifier is truthy (non-null and non-empty) and the per-call
parent map at that point binds it to a truthy remote id; in every other
case the field is omitted.  Each record's payload is built from the
parent-map state reached after the records before it. -/
theorem c9_parent_reference_iff :
    (∀ (pm : String → Option String) (aid : String) (r : ImpRec) (v : String),
      (mkPayload pm aid r).parent_id = some v ↔
        (optTruthy r.parent_id = true ∧ pm (r.parent_id.getD "") = some v ∧ v ≠ "")) ∧
    (∀ (trans : Nat → PostResult) (mr : Nat) (dry : Bool) (records : List ImpRec)
        (aid : String) (i0 f0 : Nat),
      (import_comments trans mr dry records aid i0 f0).payloads.length
        = records.length) ∧
    (∀ (trans : Nat → PostResult) (mr : Nat) (dry : Bool) (records : List ImpRec)
        (aid : String) (i0 f0 i : Nat) (h : i < records.length)
        (h2 : i < (import_comments trans mr dry records aid i0 f0).payloads.length),
      (import_comments trans mr dry records aid i0 f0).payloads.get ⟨i, h2⟩
        = mkPayload (stateBefore trans mr dry aid records i0 f0 i).parentMap aid
            (records.get ⟨i, h⟩)) := by
  refine ⟨?_, ?_, ?_⟩
  · intro pm aid r v
    simp only [mkPayload]
    by_cases h1 : optTruthy r.parent_id
    · simp only [h1, if_true]
      rcases hpm : pm (r.parent_id.getD "") with _ | w
      · simp [optTruthy]
      · by_cases hw : w = ""
        · subst hw
          have hf : optTruthy (some "") = false := by simp [optTruthy]
          simp [hf]
          exact fun hv => hv.symm
        · have ht : optTruthy (some w) = true := by simp [optTruthy, hw]
          simp only [ht, if_true]
          constructor
          · intro hv
            injection hv with hv
            subst hv
            simp_all
          · rintro ⟨-, hv, -⟩
            exact hv
    · simp [h1]
  · intro trans mr dry records aid i0 f0
    unfold import_comments
    rw [importLoop_payloads_trace]
    simp [initLoopSt, payloadTrace_length]
  · intro trans mr dry records aid i0 f0 i h h2
    unfold import_comments at h2 ⊢
    have htr : (importLoop trans mr dry aid 1 records (initLoopSt i0 f0)).payloads
        = payloadTrace trans mr dry aid 1 records (initLoopSt i0 f0) := by
      rw [importLoop_payloads_trace]; simp [initLoopSt]
    have h3 : i < (payloadTrace trans mr dry aid 1 records (initLoopSt i0 f0)).length := by
      rw [← htr]; exact h2
    have hget := payloadTrace_get trans mr dry aid records 1 (initLoopSt i0 f0) i h h3
    rw [List.get_of_eq htr ⟨i, h2⟩]
    exact hget

theorem c9_witness :
    (import_comments transId 3 false [recA, recB] "A" 0 0).payloads.get ⟨1, by decide⟩
      = mkPayload (stateBefore transId 3 false "A" [recA, recB] 0 0 1).parentMap "A"
          (([recA, recB] : List ImpRec).get ⟨1, by decide⟩) :=
  c9_parent_reference_iff.2.2 transId 3 false [recA, recB] "A" 0 0 1 (by decide) (by decide)

/-! ## Claim C8 -/

/-- Claim C8: within one run, anonymizing two records that carry the
same original author name yields the same display name, avatar URL and
pseudo-id both times, even when arbitrarily many other records are
anonymized in between: the first result is memoized and never
re-rolled. -/
theorem c8_memoized_identity (E : Entropy) (st : RandState) (A : String)
    (p q p2 q2 : String) (cs : List AComment) :
    (anonymize_comment E
        ((anonymize_comments E
          (anonymize_comment E st ⟨some A, p, q⟩).2 cs).2)
        ⟨some A, p2, q2⟩).1
      = (anonymize_comment E st ⟨some A, p, q⟩).1 := by
  have hext : RandExtend (anonymize_comment E st ⟨some A, p, q⟩).2
      ((anonymize_comments E (anonymize_comment E st ⟨some A, p, q⟩).2 cs).2) :=
    anonymize_comments_extend E cs _
  have h := anonymize_comment_replay E st ⟨some A, p, q⟩ ⟨some A, p2, q2⟩
    ((anonymize_comments E (anonymize_comment E st ⟨some A, p, q⟩).2 cs).2) hext rfl
  rw [h]

theorem c10_witness :
    (refresh_token_call credSt0 (RefreshResp.resp 500 ⟨false, none⟩)).2 = credSt0 ∧
    ∃ body result new_token,
      (RefreshResp.resp 200 ⟨false, some ⟨some "jwt-new", some "ref-new"⟩⟩ : RefreshResp)
          = RefreshResp.resp 200 body ∧
        body.result = some result ∧ result.token = some new_token ∧ new_token ≠ "" ∧
        (refresh_token_call credSt0
            (RefreshResp.resp 200 ⟨false, some ⟨some "jwt-new", some "ref-new"⟩⟩)).2.jwt_token
          = new_token :=
  ⟨c10_refresh_failure_preserves_tokens.1 credSt0 (RefreshResp.resp 500 ⟨false, none⟩)
      (by decide),
    c10_refresh_failure_preserves_tokens.2 credSt0
      (RefreshResp.resp 200 ⟨false, some ⟨some "jwt-new", some "ref-new"⟩⟩)
      (by decide) rfl⟩

/-! ## Claim C7

Part A: leftmost-match analysis of pattern 1.  If the text splits as
p ++ "at 12:34" ++ s with no colon in p and s not beginning with a
colon-digit-digit group, the only pattern-1 match is the phrase itself
(groups 12 and 34, no third group), so extract returns 754.
-/

lemma phrase_cons (s : List Char) : phraseL ++ s = 'a' :: (phraseTail ++ s) := rfl

lemma matchD12Colon_colonFree (u rest : List Char) (h : ':' ∉ u) :
    matchD12Colon (u ++ 'a' :: rest) = none := by
  have ha : ('a' : Char).isDigit = false := by decide
  have hac : ¬(('a' : Char) = ':') := by decide
  match u with
  | [] => simp [matchD12Colon, ha]
  | [c1] =>
    by_cases hd : c1.isDigit
    · simp [matchD12Colon, hd, ha, hac]
    · simp [matchD12Colon, hd]
  | c1 :: c2 :: u2 =>
    have h2 : ¬(c2 = ':') := fun e => h (by simp [e])
    by_cases hd1 : c1.isDigit
    · by_cases hd2 : c2.isDigit
      · rcases u2 with _ | ⟨c3, u3⟩
        · simp [matchD12Colon, hd1, hd2, hac]
        · have h3 : ¬(c3 = ':') := fun e => h (by simp [e])
          simp [matchD12Colon, hd1, hd2, h3]
      · simp [matchD12Colon, hd1, hd2, h2]
    · simp [matchD12Colon, hd1]

lemma dropSpaces_pre (u w : List Char) :
    ∃ u2, dropSpaces (u ++ 'a' :: w) = u2 ++ 'a' :: w ∧ ∀ c ∈ u2, c ∈ u := by
  induction u with
  | nil =>
    refine ⟨[], ?_, by simp⟩
    simp [dropSpaces, show pyIsSpace 'a' = false by decide]
  | cons c u ih =>
    by_cases hs : pyIsSpace c
    · obtain ⟨u2, he, hm⟩ := ih
      exact ⟨u2, by simp [dropSpaces, hs, he],
        fun x hx => List.mem_cons_of_mem c (hm x hx)⟩
    · exact ⟨c :: u, by simp [dropSpaces, hs], fun x hx => hx⟩

lemma matchTimeCore_colonFree (u w : List Char) (h : ':' ∉ u) :
    matchTimeCore (u ++ 'a' :: w) = none := by
  unfold matchTimeCore
  rw [matchD12Colon_colonFree u w h]

lemma matchTimeCore_afterSpaces (u w : List Char) (h : ':' ∉ u) :
    matchTimeCore (dropSpaces (u ++ 'a' :: w)) = none := by
  obtain ⟨u2, he, hm⟩ := dropSpaces_pre u w
  rw [he]
  exact matchTimeCore_colonFree u2 w (fun hx => h (hm _ hx))

lemma pat1_posInPre (c : Char) (p s : List Char) (h : ':' ∉ (c :: p)) :
    pat1 (c :: (p ++ phraseL ++ s)) = none := by
  have hp : ':' ∉ p := fun hx => h (List.mem_cons_of_mem c hx)
  have hassoc : p ++ phraseL ++ s = p ++ ('a' :: (phraseTail ++ s)) := by
    rw [List.append_assoc, phrase_cons]
  by_cases hc : c = '@'
  · simp only [pat1, matchAtWord, hc, if_pos]
    rw [hassoc, Option.some_bind, matchTimeCore_afterSpaces p (phraseTail ++ s) hp]
    rfl
  · by_cases ha : c = 'a' ∨ c = 'A'
    · have haB : (c = 'a' || c = 'A') = true := by
        rcases ha with ha | ha <;> simp [ha]
      rcases p with _ | ⟨d, p2⟩
      · -- next character is the a of the phrase: not t or T
        simp only [pat1, matchAtWord, hc, if_false, haB, if_pos, List.nil_append]
        rw [phrase_cons]
        simp [show ¬(('a' : Char) = 't' || ('a' : Char) = 'T') = true by decide]
      · by_cases hd : (d = 't' || d = 'T') = true
        · have hp2 : ':' ∉ p2 := fun hx => hp (List.mem_cons_of_mem d hx)
          have hassoc2 : p2 ++ phraseL ++ s = p2 ++ ('a' :: (phraseTail ++ s)) := by
            rw [List.append_assoc, phrase_cons]
          simp only [pat1, matchAtWord, hc, if_false, haB, if_pos, List.cons_append, hd]
          rw [hassoc2, Option.some_bind,
            matchTimeCore_afterSpaces p2 (phraseTail ++ s) hp2]
          rfl
        · simp [pat1, matchAtWord, hc, haB, hd]
    · have haB : (c = 'a' || c = 'A') = false := by
        push_neg at ha
        simp [ha.1, ha.2]
      simp [pat1, matchAtWord, hc, haB]

/-- One computation step: the core time matcher on the digits of the
phrase reduces to a case split on the suffix (the optional seconds
group). -/
lemma matchTimeCore_phrase_eq (s : List Char) :
    matchTimeCore ('1' :: '2' :: ':' :: '3' :: '4' :: s) =
      (match s with
       | c :: r3 =>
         if c = ':' then
           match matchDD r3 with
           | some (g3, r4) => some (12, 34, some g3, r4)
           | none => some (12, 34, none, s)
         else some (12, 34, none, s)
       | [] => some (12, 34, none, s)) := rfl

lemma matchTimeCore_phrase (s : List Char) (hs : startsColonDD s = false) :
    matchTimeCore ('1' :: '2' :: ':' :: '3' :: '4' :: s) = some (12, 34, none, s) := by
  rw [matchTimeCore_phrase_eq]
  rcases s with _ | ⟨c, r3⟩
  · rfl
  · by_cases hc : c = ':'
    · subst hc
      have hmd : matchDD r3 = none := by
        rcases hx : matchDD r3 with _ | v
        · rfl
        · exfalso
          simp [startsColonDD, hx] at hs
      simp [hmd]
    · simp [hc]

lemma pat1_at_phrase (s : List Char) (hs : startsColonDD s = false) :
    pat1 (phraseL ++ s) = some (12, 34, none) := by
  have hAt : matchAtWord (phraseL ++ s)
      = some (' ' :: '1' :: '2' :: ':' :: '3' :: '4' :: s) := rfl
  have hDrop : dropSpaces (' ' :: '1' :: '2' :: ':' :: '3' :: '4' :: s)
      = '1' :: '2' :: ':' :: '3' :: '4' :: s := rfl
  unfold pat1
  rw [hAt, Option.some_bind, hDrop, matchTimeCore_phrase s hs]
  rfl

lemma searchAux_cons_some {α : Type} (m : List Char → Option α) (c : Char)
    (t : List Char) (r : α) (h : m (c :: t) = some r) :
    searchAux m (c :: t) = some r := by
  simp only [searchAux, h]

lemma searchAux_cons_none {α : Type} (m : List Char → Option α) (c : Char)
    (t : List Char) (h : m (c :: t) = none) :
    searchAux m (c :: t) = searchAux m t := by
  simp only [searchAux, h]

lemma searchPat1_phrase (p s : List Char) (hp : ':' ∉ p)
    (hs : startsColonDD s = false) :
    searchAux pat1 (p ++ phraseL ++ s) = some (12, 34, none) := by
  induction p with
  | nil =>
    simp only [List.nil_append]
    rw [phrase_cons]
    apply searchAux_cons_some
    rw [← phrase_cons]
    exact pat1_at_phrase s hs
  | cons c p ih =>
    have hc : ':' ∉ p := fun hx => hp (List.mem_cons_of_mem c hx)
    have hnone := pat1_posInPre c p s hp
    have hstep : (c :: p) ++ phraseL ++ s = c :: (p ++ phraseL ++ s) := by simp
    rw [hstep, searchAux_cons_none _ _ _ hnone]
    exact ih hc

/-- When pattern 1 matches somewhere in the text, the later patterns are
never consulted and the seconds come from its groups. -/
lemma extract_timestamp_pat1 (t : String) (g : Nat × Nat × Option Nat)
    (h : searchAux pat1 t.toList = some g) :
    extract_timestamp t = secondsOfGroups g := by
  simp only [extract_timestamp, h]

lemma extract_at_phrase (p s : List Char) (hp : ':' ∉ p)
    (hs : startsColonDD s = false) :
    extract_timestamp (String.mk (p ++ phraseL ++ s)) = 754 := by
  have htl : (String.mk (p ++ phraseL ++ s)).toList = p ++ phraseL ++ s := rfl
  have h : searchAux pat1 (String.mk (p ++ phraseL ++ s)).toList
      = some (12, 34, none) := by
    rw [htl]
    exact searchPat1_phrase p s hp hs
  rw [extract_timestamp_pat1 _ _ h]
  rfl

/-! Part B: behaviour of the removal pass on a digit-free frame.  On a
text p ++ "at 12:34" ++ s with no digits in p and s, the first removal
pattern deletes exactly the phrase and nothing else matches, so the
result is p ++ s up to whitespace normalization. -/

lemma matchDD_nodigit (r : List Char) (h : digitFree r) : matchDD r = none := by
  rcases r with _ | ⟨c1, _ | ⟨c2, rr⟩⟩
  · rfl
  · rfl
  · have h1 : c1.isDigit = false := h c1 (by simp)
    simp [matchDD, h1]

lemma matchD12Colon_headNondigit (t : List Char)
    (h : ∀ c r, t = c :: r → c.isDigit = false) : matchD12Colon t = none := by
  rcases t with _ | ⟨c, r⟩
  · rfl
  · have := h c r rfl
    simp [matchD12Colon, this]

lemma matchTimeCore_headNondigit (t : List Char)
    (h : ∀ c r, t = c :: r → c.isDigit = false) : matchTimeCore t = none := by
  unfold matchTimeCore
  rw [matchD12Colon_headNondigit t h]

lemma matchTimeCore_digitFree (t : List Char) (h : digitFree t) :
    matchTimeCore t = none :=
  matchTimeCore_headNondigit t (fun c r he => h c (by rw [he]; simp))

lemma digitFree_startsColonDD (s : List Char) (h : digitFree s) :
    startsColonDD s = false := by
  rcases s with _ | ⟨c, r⟩
  · rfl
  · have hr : digitFree r := fun x hx => h x (List.mem_cons_of_mem c hx)
    simp [startsColonDD, matchDD_nodigit r hr]

lemma dropSpaces_mem (t : List Char) : ∀ c ∈ dropSpaces t, c ∈ t := by
  induction t with
  | nil => intro c hc; simp [dropSpaces] at hc
  | cons d r ih =>
    intro c hc
    by_cases hs : pyIsSpace d
    · simp only [dropSpaces, hs, if_pos] at hc
      exact List.mem_cons_of_mem d (ih c hc)
    · simp only [dropSpaces, hs, if_neg, Bool.false_eq_true] at hc
      exact hc

lemma matchAtWord_mem (t r : List Char) (h : matchAtWord t = some r) :
    ∀ c ∈ r, c ∈ t := by
  rcases t with _ | ⟨c1, rest⟩
  · cases h
  · by_cases h1 : c1 = '@'
    · simp only [matchAtWord, h1, if_pos] at h
      cases h
      intro c hc; exact List.mem_cons_of_mem _ hc
    · by_cases h2 : (c1 = 'a' || c1 = 'A') = true
      · rcases rest with _ | ⟨c2, rest2⟩
        · simp [matchAtWord, h1, h2] at h
        · by_cases h3 : (c2 = 't' || c2 = 'T') = true
          · simp only [matchAtWord, h1, if_neg, h2, if_pos, h3] at h
            cases h
            intro c hc
            exact List.mem_cons_of_mem _ (List.mem_cons_of_mem _ hc)
          · simp [matchAtWord, h1, h2, h3] at h
      · simp [matchAtWord, h1, h2] at h

lemma rem1_digitFree (t : List Char) (h : digitFree t) : rem1 t = none := by
  unfold rem1
  rcases hA : matchAtWord t with _ | r
  · rfl
  · have hr : digitFree r := fun c hc => h c (matchAtWord_mem t r hA c hc)
    have h2 : digitFree (dropSpaces r) := fun c hc => hr c (dropSpaces_mem r c hc)
    rw [Option.some_bind, matchTimeCore_digitFree _ h2]
    rfl

lemma rem2_digitFree (t : List Char) (h : digitFree t) : rem2 t = none := by
  unfold rem2
  rw [matchTimeCore_digitFree t h]
  rfl

lemma rem4_digitFree (t : List Char) (h : digitFree t) : rem4 t = none := by
  unfold rem4
  rw [matchTimeCore_digitFree t h]
  rfl

lemma sub3run_digitFree (t : List Char) (h : digitFree t) : sub3run t = t := by
  unfold sub3run
  rw [matchTimeCore_digitFree t h]

lemma subAllF_id (m : List Char → Option (List Char)) :
    ∀ (t : List Char) (fuel : Nat), (∀ t2, t2 <:+ t → m t2 = none) →
      subAllF m fuel t = t := by
  intro t
  induction t with
  | nil => intro fuel _; cases fuel <;> rfl
  | cons c rest ih =>
    intro fuel h
    cases fuel with
    | zero => rfl
    | succ f =>
      have h0 : m (c :: rest) = none := h _ (List.suffix_refl _)
      simp only [subAllF, h0]
      rw [ih f (fun t2 ht2 => h t2 (ht2.trans (List.suffix_cons c rest)))]

lemma subAll_id (m : List Char → Option (List Char)) (t : List Char)
    (h : ∀ t2, t2 <:+ t → m t2 = none) : subAll m t = t :=
  subAllF_id m t t.length h

lemma rem1_at_phrase (s : List Char) (hs : digitFree s) :
    rem1 (phraseL ++ s) = some s := by
  have hAt : matchAtWord (phraseL ++ s)
      = some (' ' :: '1' :: '2' :: ':' :: '3' :: '4' :: s) := rfl
  have hDrop : dropSpaces (' ' :: '1' :: '2' :: ':' :: '3' :: '4' :: s)
      = '1' :: '2' :: ':' :: '3' :: '4' :: s := rfl
  unfold rem1
  rw [hAt, Option.some_bind, hDrop,
    matchTimeCore_phrase s (digitFree_startsColonDD s hs)]
  rfl

lemma matchTimeCore_afterSpaces_nodigit (u w : List Char) (h : digitFree u) :
    matchTimeCore (dropSpaces (u ++ 'a' :: w)) = none := by
  obtain ⟨u2, he, hm⟩ := dropSpaces_pre u w
  rw [he]
  apply matchTimeCore_headNondigit
  intro c r hcr
  rcases u2 with _ | ⟨d, u3⟩
  · simp only [List.nil_append] at hcr
    cases hcr
    decide
  · simp only [List.cons_append] at hcr
    cases hcr
    exact h _ (hm _ (by simp))

lemma rem1_posInPre (c : Char) (p s : List Char) (hcp : digitFree (c :: p))
    (_hs : digitFree s) : rem1 (c :: (p ++ phraseL ++ s)) = none := by
  have hp : digitFree p := fun x hx => hcp x (List.mem_cons_of_mem c hx)
  have hassoc : p ++ phraseL ++ s = p ++ ('a' :: (phraseTail ++ s)) := by
    rw [List.append_assoc, phrase_cons]
  by_cases hc : c = '@'
  · simp only [rem1, matchAtWord, hc, if_pos]
    rw [hassoc, Option.some_bind, matchTimeCore_afterSpaces_nodigit p (phraseTail ++ s) hp]
    rfl
  · by_cases ha : (c = 'a' || c = 'A') = true
    · rcases p with _ | ⟨d, p2⟩
      · simp only [rem1, matchAtWord, hc, if_false, ha, if_pos, List.nil_append]
        rw [phrase_cons]
        simp [show ¬(('a' : Char) = 't' || ('a' : Char) = 'T') = true by decide]
      · by_cases hd : (d = 't' || d = 'T') = true
        · have hp2 : digitFree p2 := fun x hx => hp x (List.mem_cons_of_mem d hx)
          have hassoc2 : p2 ++ phraseL ++ s = p2 ++ ('a' :: (phraseTail ++ s)) := by
            rw [List.append_assoc, phrase_cons]
          simp only [rem1, matchAtWord, hc, if_false, ha, if_pos, List.cons_append, hd]
          rw [hassoc2, Option.some_bind,
            matchTimeCore_afterSpaces_nodigit p2 (phraseTail ++ s) hp2]
          rfl
        · simp [rem1, matchAtWord, hc, ha, hd]
    · simp [rem1, matchAtWord, hc, ha]

lemma subAllF_rem1_phrase :
    ∀ (p s : List Char) (fuel : Nat), digitFree p → digitFree s →
      (p ++ phraseL ++ s).length ≤ fuel →
      subAllF rem1 fuel (p ++ phraseL ++ s) = p ++ s := by
  intro p
  induction p with
  | nil =>
    intro s fuel hp hs hlen
    simp only [List.nil_append] at *
    rcases fuel with _ | f
    · exfalso
      simp [phraseL] at hlen
    · rw [phrase_cons]
      have hm : rem1 ('a' :: (phraseTail ++ s)) = some s := by
        rw [← phrase_cons]
        exact rem1_at_phrase s hs
      simp only [subAllF, hm]
      have hg : s.length ≤ (phraseTail ++ s).length := by
        simp [phraseTail]
        omega
      rw [if_pos hg]
      apply subAllF_id
      intro t2 ht2
      exact rem1_digitFree t2 (fun c hc => hs c (ht2.subset hc))
  | cons c p2 ih =>
    intro s fuel hp hs hlen
    have hstep : (c :: p2) ++ phraseL ++ s = c :: (p2 ++ phraseL ++ s) := by simp
    rw [hstep] at hlen ⊢
    rcases fuel with _ | f
    · exfalso
      simp at hlen
    · have hm : rem1 (c :: (p2 ++ phraseL ++ s)) = none := rem1_posInPre c p2 s hp hs
      simp only [subAllF, hm]
      have hp2 : digitFree p2 := fun x hx => hp x (List.mem_cons_of_mem c hx)
      have hlen2 : (p2 ++ phraseL ++ s).length ≤ f := by
        simp only [List.length_cons] at hlen
        omega
      rw [ih s f hp2 hs hlen2]
      rfl

lemma digitFree_append (p s : List Char) (hp : digitFree p) (hs : digitFree s) :
    digitFree (p ++ s) := by
  intro c hc
  rcases List.mem_append.mp hc with h | h
  · exact hp c h
  · exact hs c h

lemma strip_at_phrase (p s : List Char) (hp : digitFree p) (hs : digitFree s) :
    remove_timestamp_from_text (String.mk (p ++ phraseL ++ s)) =
      String.mk (stripEnds (collapseWS (p ++ s))) := by
  have htl : (String.mk (p ++ phraseL ++ s)).toList = p ++ phraseL ++ s := rfl
  have hps : digitFree (p ++ s) := digitFree_append p s hp hs
  have h1 : subAll rem1 (p ++ phraseL ++ s) = p ++ s := by
    unfold subAll
    exact subAllF_rem1_phrase p s (p ++ phraseL ++ s).length hp hs (le_refl _)
  have h2 : subAll rem2 (p ++ s) = p ++ s :=
    subAll_id rem2 (p ++ s)
      (fun t2 ht2 => rem2_digitFree t2 (fun c hc => hps c (ht2.subset hc)))
  have h3 : sub3run (p ++ s) = p ++ s := sub3run_digitFree (p ++ s) hps
  have h4 : subAll rem4 (p ++ s) = p ++ s :=
    subAll_id rem4 (p ++ s)
      (fun t2 ht2 => rem4_digitFree t2 (fun c hc => hps c (ht2.subset hc)))
  simp only [remove_timestamp_from_text, htl, h1, h2, h3, h4]

/-- The text of the counterexample, split to exhibit the phrase. -/
lemma c7_split : "at 1:30 at 12:34".toList = "at 1:30 ".toList ++ "at 12:34".toList := by
  decide

/-- Claim C7 counterexample: the text "at 1:30 at 12:34" contains the
phrase "at 12:34", yet extract returns 90, not 754: the leftmost
pattern-1 match wins.  Also, strip does not leave the remainder intact:
on "at 12:34 see 5:00" it deletes the unrelated timestamp 5:00 from the
remainder as well. -/
theorem c7_earlier_timestamp_preempts :
    "at 1:30 at 12:34".toList = "at 1:30 ".toList ++ "at 12:34".toList ∧
    extract_timestamp "at 1:30 at 12:34" = 90 ∧ (90 : Nat) ≠ 754 ∧
    "at 12:34 see 5:00".toList = "at 12:34".toList ++ " see 5:00".toList ∧
    remove_timestamp_from_text "at 12:34 see 5:00" = "see" := by
  refine ⟨by decide, by decide, by decide, by decide, by decide⟩

/-- Claim C7 (amended): extract_timestamp returns 754 for a text
containing "at 12:34" when that phrase is the leftmost pattern-1 match:
for every split p ++ "at 12:34" ++ s with no colon in p and s not
starting with a colon and two digits, the result is 754 (754 equals 12
minutes 34 seconds; two-group matches are minutes:seconds, three-group
matches hours:minutes:seconds, and 0 is returned when nothing matches).
strip_timestamp removes every substring matching any of the four removal
patterns, not only the matched one; when the frame around the phrase is
digit-free, it removes exactly the phrase and then collapses whitespace
runs and trims ends, leaving the remainder p ++ s otherwise intact. -/
theorem c7_leftmost_at_phrase :
    "at 12:34".toList = phraseL ∧
    (∀ (p s : List Char), ':' ∉ p → startsColonDD s = false →
      extract_timestamp (String.mk (p ++ phraseL ++ s)) = 754) ∧
    (∀ (p s : List Char), digitFree p → digitFree s →
      remove_timestamp_from_text (String.mk (p ++ phraseL ++ s))
        = String.mk (stripEnds (collapseWS (p ++ s)))) :=
  ⟨rfl, extract_at_phrase, strip_at_phrase⟩

theorem c7_witness :
    (':' ∉ ("go ".toList) ∧ startsColonDD (" ok".toList) = false ∧
      extract_timestamp (String.mk ("go ".toList ++ phraseL ++ " ok".toList)) = 754) ∧
    (digitFree ("go ".toList) ∧ digitFree (" ok".toList) ∧
      remove_timestamp_from_text (String.mk ("go ".toList ++ phraseL ++ " ok".toList))
        = String.mk (stripEnds (collapseWS ("go ".toList ++ " ok".toList)))) :=
  ⟨⟨by decide, by decide,
      c7_leftmost_at_phrase.2.1 ("go ".toList) (" ok".toList) (by decide) (by decide)⟩,
    ⟨by decide, by decide,
      c7_leftmost_at_phrase.2.2 ("go ".toList) (" ok".toList) (by decide) (by decide)⟩⟩

end Ingest
